import Mathlib

/-!
Verification development for the euler-xyz/token-images sync and
provider-resolution engine.

The definitions below are a shallow embedding of the TypeScript source:

* `src/services/fetch-image-service.ts` (`ImageProviderManager`):
  concurrent provider fan-out with priority scan;
* `src/services/sync-service.ts` (`SyncService`): rate-limit gate,
  `startSync`, `performSync`, `migrateLocalImages`, `downloadMissingImages`;
* `src/services/image-storage-service.ts`: S3 key construction,
  existence check, read, write, bulk check;
* `src/providers/local-images-provider.ts` and
  `src/providers/coingecko-provider.ts`: provider `fetchImage` logic;
* `src/providers/pendle-pt-underlying-provider.ts`: the derived
  underlying-asset resolver and its delegated fan-out.

External collaborators (HTTP responses, the filesystem, S3 transport,
RPC reads) are abstracted as environment records whose fields give the
outcome of each external call, exactly at the catch boundaries the code
already has: a call either yields a value or throws, and the code
converts every such failure into `null`/`false` at the point modelled.
JavaScript's event loop is modelled by an explicit completion order for
`Promise.all` fan-outs: the scheduler settles the promises in an
arbitrary permutation of their registration order, and writes each
result into its registration slot, which is exactly the semantics of
`Promise.all` result arrays.
-/

namespace TokenImages

/-- Image byte payloads (`Uint8Array` in the source). -/
def Buffer := List Nat

instance : DecidableEq Buffer := by
  unfold Buffer
  infer_instance

/-- JavaScript's `String.prototype.toLowerCase()` as used on addresses and
extensions: lower-case every character (the same function as Lean's
`String.toLower`, spelled out over the character list so that concrete
instances reduce). -/
def jsToLower (s : String) : String := String.mk (s.data.map Char.toLower)

/-- Embeds `ImageResult` from `src/providers/interface.ts`: optional remote `url`,
optional local `buffer`, origin `provider` tag, `extension`, optional
local file `path`. -/
structure ImageResult where
  url : Option String
  buffer : Option Buffer
  provider : String
  extension : String
  path : Option String
  deriving DecidableEq

/-- Outcome of one external `fetchImage` call: it either resolves with
`ImageResult | null`, or rejects (throws). -/
inductive FetchOutcome where
  | ok (result : Option ImageResult)
  | throws
  deriving DecidableEq

/-- A direct (non-delegating) provider as the fan-out sees it: its `name`,
its `isAvailable()` answer, and the outcome of `fetchImage(chainId, address)`
for each address (the chain id is fixed per resolution). -/
structure DirectSpec where
  name : String
  available : Bool
  behavior : String → FetchOutcome

/-- Configuration of the `PendlePTUnderlyingProvider`: the off-band
`isPendlePT` lookup (tokenlist annotation plus the hard-coded debug
override), the two-step on-chain resolution of the underlying asset
address (`SY()` then `assetInfo()`, `none` when the chain/RPC is
unavailable or a call fails), and the S3 probe for an already-stored
underlying logo. -/
structure PTConfig where
  isPT : String → Bool
  underlying : String → Option String
  s3Image : String → Option (Buffer × Option String)

/-- A provider registered in the `ImageProviderManager` list: either a
direct provider or the Pendle-PT underlying resolver. -/
inductive ManagedProvider where
  | direct (d : DirectSpec)
  | ptUnderlying (cfg : PTConfig)

/-- Embeds `provider.name`; the Pendle-PT underlying resolver's name is the
constant `"pendle-pt-underlying"`. -/
def ManagedProvider.name : ManagedProvider → String
  | .direct d => d.name
  | .ptUnderlying _ => "pendle-pt-underlying"

/-- Settling one direct provider inside a fan-out arm
(`fetch-image-service.ts` lines 95-106): unavailable providers resolve
with `null`, a throwing provider is caught and mapped to `null`. -/
def settleDirect (d : DirectSpec) (address : String) : Option ImageResult :=
  if !d.available then none
  else match d.behavior address with
    | .ok r => r
    | .throws => none

/-- The provider list used for delegated underlying resolution
(`fetchImageForUnderlying`, lines 161-165): every provider whose name is
`"pendle-pt-underlying"` is filtered out. -/
def providersForUnderlying (all : List ManagedProvider) : List ManagedProvider :=
  all.filter (fun p => p.name ≠ "pendle-pt-underlying")

/-- Settling a provider inside the delegated (underlying) fan-out. The
`ptUnderlying` arm is unreachable there because the name filter removes
it (proved in `mem_providersForUnderlying_direct`); it is mapped to
`none` to keep the function total. -/
def settleForUnderlying (address : String) : ManagedProvider → Option ImageResult
  | .direct d => settleDirect d address
  | .ptUnderlying _ => none

/-- Embeds `ImageProviderManager.fetchImageForUnderlying` (lines 161-192): fan
out over all providers except the PT-underlying one, wait for all to
settle, return the first non-`null` result in registration order. -/
def fetchImageForUnderlying (all : List ManagedProvider) (address : String) :
    Option ImageResult :=
  ((providersForUnderlying all).map (settleForUnderlying address)).findSome? id

/-- Embeds `PendlePTUnderlyingProvider.fetchImage`
(`pendle-pt-underlying-provider.ts` lines 328-384), with the manager's
wiring of `setFetchUnderlyingImage` to `fetchImageForUnderlying` already
applied (so `isAvailable()` is true): detect a PT token, resolve its
underlying address, probe S3, otherwise delegate to the full provider
chain minus itself and re-tag the result with this provider's name. -/
def ptFetchImage (cfg : PTConfig) (all : List ManagedProvider)
    (address : String) : Option ImageResult :=
  if !cfg.isPT address then none
  else match cfg.underlying address with
    | none => none
    | some underlyingAddress =>
      match cfg.s3Image underlyingAddress with
      | some (buf, ext) =>
        some { url := none, buffer := some buf, provider := "pendle-pt-underlying",
               extension := ext.getD "png", path := none }
      | none =>
        match fetchImageForUnderlying all underlyingAddress with
        | some r => some { r with provider := "pendle-pt-underlying" }
        | none => none

/-- Settling one provider of the manager's list inside the top-level
fan-out. -/
def settleManaged (all : List ManagedProvider) (address : String) :
    ManagedProvider → Option ImageResult
  | .direct d => settleDirect d address
  | .ptUnderlying cfg => ptFetchImage cfg all address

/-- The positional settled-results array of the top-level fan-out, before
scheduling is taken into account. -/
def settleAll (all : List ManagedProvider) (address : String) :
    List (Option ImageResult) :=
  all.map (settleManaged all address)

/-- The trace of promise completions: the scheduler settles slot indices
in the sequence `order`; each completion carries its registration index
and its settled value. Indices out of range settle nothing. -/
def settleTrace (vals : List (Option ImageResult)) : List Nat → List (Nat × Option ImageResult)
  | [] => []
  | j :: rest =>
    match vals.get? j with
    | none => settleTrace vals rest
    | some v => (j, v) :: settleTrace vals rest

/-- Embeds `Promise.all` semantics: regardless of the completion sequence, the
result array holds each promise's settled value at its registration
index. Slot `i` receives the value of the first completion for index
`i`. -/
def promiseAll (vals : List (Option ImageResult)) (order : List Nat) :
    List (Option ImageResult) :=
  (List.range vals.length).map (fun i => ((settleTrace vals order).lookup i).getD none)

/-- Embeds `ImageProviderManager.fetchImage` (`fetch-image-service.ts` lines
93-119) under an explicit completion order: run every registered
provider's arm, wait for all of them via `Promise.all`, then scan the
results in registration order and return the first non-`null` one. -/
def managerFetchImage (all : List ManagedProvider) (address : String)
    (order : List Nat) : Option ImageResult :=
  (promiseAll (settleAll all address) order).findSome? id

/-! ### Scheduling lemmas for the fan-out -/

theorem lookup_settleTrace (vals : List (Option ImageResult)) (order : List Nat)
    (i : Nat) (v : Option ImageResult) (hv : vals.get? i = some v)
    (hmem : i ∈ order) :
    (settleTrace vals order).lookup i = some v := by
  induction order with
  | nil => cases hmem
  | cons j rest ih =>
    by_cases hij : i = j
    · subst hij
      simp only [settleTrace, hv]
      simp [List.lookup]
    · have hmem' : i ∈ rest := by
        cases List.mem_cons.mp hmem with
        | inl h => exact absurd h hij
        | inr h => exact h
      simp only [settleTrace]
      cases hj : vals.get? j with
      | none => exact ih hmem'
      | some w =>
        have : ((j, w) :: settleTrace vals rest).lookup i
            = (settleTrace vals rest).lookup i := by
          have hbeq : (i == j) = false := by
            exact beq_false_of_ne hij
          simp [List.lookup, hbeq]
        rw [this]
        exact ih hmem'

/-- Determinism: `Promise.all` is deterministic on registration order: for any
completion sequence that settles every promise, the result array is the
positional array of settled values. -/
theorem promiseAll_eq_of_perm (vals : List (Option ImageResult))
    (order : List Nat) (h : order.Perm (List.range vals.length)) :
    promiseAll vals order = vals := by
  apply List.ext_get
  · simp [promiseAll]
  · intro i h1 h2
    simp only [promiseAll, List.get_eq_getElem, List.getElem_map,
      List.getElem_range]
    have hlen : i < vals.length := by
      simpa [promiseAll] using h1
    have hv : vals.get? i = some (vals.get ⟨i, hlen⟩) := by
      simp [List.get?_eq_getElem?, List.getElem?_eq_getElem hlen]
    have hmem : i ∈ order := h.mem_iff.mpr (List.mem_range.mpr hlen)
    rw [lookup_settleTrace vals order i _ hv hmem]
    simp

/-- Scanning for the first non-`null` entry: if slot `i` holds a result
and every earlier slot is `null`, that result is returned. -/
theorem findSome?_first (l : List (Option ImageResult)) (i : Nat) (r : ImageResult)
    (hi : l.get? i = some (some r)) (hk : ∀ k < i, l.get? k = some none) :
    l.findSome? id = some r := by
  induction l generalizing i with
  | nil => simp at hi
  | cons x xs ih =>
    cases i with
    | zero =>
      simp only [List.get?_cons_zero, Option.some_inj] at hi
      subst hi
      rfl
    | succ n =>
      have hx : x = none := by
        have := hk 0 (Nat.succ_pos n)
        simpa using this
      subst hx
      simp only [List.findSome?, id]
      exact ih n (by simpa using hi) (fun k hkn => by
        have := hk (k + 1) (Nat.succ_lt_succ hkn)
        simpa using this)

/-! ### Claim theorems about the provider fan-out -/

/-- C1: for every (chainId, address) pair, `ImageProviderManager.fetchImage`
waits for every registered provider's fetch to settle and then returns the
result of the earliest-registered provider that produced a non-absent
result; in particular, whatever order the providers' promises settle in
(any permutation of the registration indices), the returned result is the
one from the provider registered earliest among those with non-absent
results, regardless of which provider responded faster. -/
theorem providerChain_priority (all : List ManagedProvider) (address : String)
    (order : List Nat) (h : order.Perm (List.range all.length)) :
    managerFetchImage all address order = (settleAll all address).findSome? id
    ∧ ∀ i r, (settleAll all address).get? i = some (some r) →
        (∀ k, k < i → (settleAll all address).get? k = some none) →
        managerFetchImage all address order = some r := by
  have hlen : (settleAll all address).length = all.length := by
    simp [settleAll]
  have heq : managerFetchImage all address order
      = (settleAll all address).findSome? id := by
    unfold managerFetchImage
    rw [promiseAll_eq_of_perm]
    rw [hlen]
    exact h
  refine ⟨heq, fun i r hi hk => ?_⟩
  rw [heq]
  exact findSome?_first _ i r hi hk

/-- Witness for C1: two available providers A (registered first) and B
both return non-absent results; the completion order `[1, 0]` makes B
respond before A, yet the resolver returns A's result. -/
theorem providerChain_priority_witness :
    managerFetchImage
      [ .direct { name := "A", available := true, behavior := fun _ => .ok (some { url := some "https://a/logo.png", buffer := none, provider := "A", extension := "png", path := none }) },
        .direct { name := "B", available := true, behavior := fun _ => .ok (some { url := some "https://b/logo.png", buffer := none, provider := "B", extension := "png", path := none }) } ]
      "0xtoken" [1, 0]
    = some { url := some "https://a/logo.png", buffer := none, provider := "A",
             extension := "png", path := none } := by
  exact (providerChain_priority _ "0xtoken" [1, 0] (by decide)).2 0 _ rfl
    (fun k hk => absurd hk (Nat.not_lt_zero k))

/-- C4: a provider whose `fetchImage` throws is caught and treated as
absent; it neither aborts the fan-out (the earliest-registered non-absent
result is still returned) nor changes the rule that the resolver returns
absent if and only if every registered provider settled absent. -/
theorem fanout_fault_tolerance (all : List ManagedProvider) (address : String)
    (order : List Nat) (d : DirectSpec)
    (hperm : order.Perm (List.range all.length))
    (hmem : ManagedProvider.direct d ∈ all)
    (hthrow : d.behavior address = .throws) :
    settleManaged all address (.direct d) = none
    ∧ (managerFetchImage all address order = none ↔
        ∀ p ∈ all, settleManaged all address p = none)
    ∧ ∀ i r, (settleAll all address).get? i = some (some r) →
        (∀ k, k < i → (settleAll all address).get? k = some none) →
        managerFetchImage all address order = some r := by
  have hpr := providerChain_priority all address order hperm
  refine ⟨?_, ?_, hpr.2⟩
  · simp only [settleManaged, settleDirect, hthrow]
    cases d.available <;> simp
  · rw [hpr.1, List.findSome?_eq_none_iff]
    constructor
    · intro hall p hp
      have := hall (settleManaged all address p) (List.mem_map_of_mem _ hp)
      simpa using this
    · intro hall o ho
      obtain ⟨p, hp, rfl⟩ := List.mem_map.mp ho
      simpa using hall p hp

/-- Witness for C4: the first-registered provider throws, the second
returns a result; the resolver still returns the second provider's
result. -/
theorem fanout_fault_tolerance_witness :
    managerFetchImage
      [ .direct { name := "thrower", available := true, behavior := fun _ => .throws },
        .direct { name := "B", available := true, behavior := fun _ => .ok (some { url := some "https://b/logo.svg", buffer := none, provider := "B", extension := "svg", path := none }) } ]
      "0xtoken" [1, 0]
    = some { url := some "https://b/logo.svg", buffer := none, provider := "B",
             extension := "svg", path := none } := by
  exact (fanout_fault_tolerance _ "0xtoken" [1, 0]
      { name := "thrower", available := true, behavior := fun _ => .throws }
      (by decide) (List.mem_cons_self _ _) rfl).2.2 1 _ rfl
    (fun k hk => by
      have hkz : k = 0 := by omega
      subst hkz
      rfl)

/-- C7: the delegated fan-out of the `pendle-pt-underlying` provider uses
the provider list with that provider removed, so the provider never
invokes itself (every member of the delegated list is a direct provider
with a different name), and resolution terminates after at most one level
of delegation: `ptFetchImage` either returns absent, or an S3-stored
buffer tagged `"pendle-pt-underlying"`, or a direct-provider result for
the underlying asset re-tagged with `"pendle-pt-underlying"` — this holds
for every token, including tokens whose underlying asset is itself
flagged as a PT, since `fetchImageForUnderlying` consults only the
filtered list. (Termination after one level is structural: the Lean
definitions `fetchImageForUnderlying` and `settleForUnderlying` contain no
recursive call back into `ptFetchImage`.) -/
theorem ptUnderlying_non_reentrant (all : List ManagedProvider) (cfg : PTConfig)
    (address : String) :
    (∀ p ∈ providersForUnderlying all, p.name ≠ "pendle-pt-underlying")
    ∧ (∀ p ∈ providersForUnderlying all, ∃ d, p = .direct d)
    ∧ (ptFetchImage cfg all address = none
       ∨ (∃ ua buf ext, cfg.underlying address = some ua
            ∧ cfg.s3Image ua = some (buf, ext)
            ∧ ptFetchImage cfg all address
              = some { url := none, buffer := some buf,
                       provider := "pendle-pt-underlying",
                       extension := ext.getD "png", path := none })
       ∨ (∃ ua r, cfg.underlying address = some ua
            ∧ fetchImageForUnderlying all ua = some r
            ∧ ptFetchImage cfg all address
              = some { r with provider := "pendle-pt-underlying" })) := by
  have hname : ∀ p ∈ providersForUnderlying all, p.name ≠ "pendle-pt-underlying" := by
    intro p hp
    have := List.mem_filter.mp hp
    simpa using this.2
  refine ⟨hname, ?_, ?_⟩
  · intro p hp
    cases p with
    | direct d => exact ⟨d, rfl⟩
    | ptUnderlying c =>
      exact absurd rfl (hname _ hp)
  · by_cases hpt : cfg.isPT address
    · cases hu : cfg.underlying address with
      | none =>
        refine Or.inl ?_
        simp [ptFetchImage, hpt, hu]
      | some ua =>
        cases hs : cfg.s3Image ua with
        | some pair =>
          obtain ⟨buf, ext⟩ := pair
          refine Or.inr (Or.inl ⟨ua, buf, ext, rfl, hs, ?_⟩)
          simp [ptFetchImage, hpt, hu, hs]
        | none =>
          cases hf : fetchImageForUnderlying all ua with
          | none =>
            refine Or.inl ?_
            simp [ptFetchImage, hpt, hu, hs, hf]
          | some r =>
            refine Or.inr (Or.inr ⟨ua, r, rfl, hf, ?_⟩)
            simp [ptFetchImage, hpt, hu, hs, hf]
    · refine Or.inl ?_
      simp [ptFetchImage, hpt]

/-! ### SyncService: status records and the rate-limit gate
(`src/services/sync-service.ts`, embedded from `src/unnamed/part_003`) -/

/-- The `status` field of a `SyncStatus`:
`'running' | 'completed' | 'failed'`. -/
inductive SyncState where
  | running
  | completed
  | failed
  deriving DecidableEq

/-- The `progress` object of a `SyncStatus`. -/
structure Progress where
  phase : String
  current : Nat
  total : Nat
  deriving DecidableEq

/-- One entry of a `SyncResult.details` list: address, outcome tag and
optional originating provider. -/
structure Detail where
  address : String
  status : String
  provider : Option String
  deriving DecidableEq

/-- Embeds `SyncResult`: the aggregate snapshot attached to a finished sync.
Timestamps are JavaScript millisecond numbers, modelled as `Int` (the
`duration` is a difference of two `Date.now()` readings). -/
structure SyncResult where
  chainId : Nat
  totalTokens : Nat
  existingImages : Nat
  migratedFromLocal : Nat
  downloadedImages : Nat
  failedDownloads : Nat
  duration : Int
  details : List Detail
  deriving DecidableEq

/-- Embeds `SyncStatus`: the per-chain job record held in the
`SyncService.syncStatuses` map. -/
structure SyncStatus where
  chainId : Nat
  status : SyncState
  startTime : Int
  endTime : Option Int
  progress : Option Progress
  result : Option SyncResult
  error : Option String
  remainingTime : Option Int
  deriving DecidableEq

/-- Embeds `RateLimitError`: the structured rejection signal. -/
structure RateLimitError where
  chainId : Nat
  remainingTime : Int
  message : String
  deriving DecidableEq

/-- Embeds `RATE_LIMIT_MINUTES * 60 * 1000` with `RATE_LIMIT_MINUTES = 1`. -/
def rateLimitMs : Int := 1 * 60 * 1000

/-- Embeds `Math.floor(x / 60000)` on an integer millisecond count. -/
def floorMinutes (ms : Int) : Int := Int.fdiv ms (60 * 1000)

/-- Embeds `Math.ceil(x / 60000)` on an integer millisecond count. -/
def ceilMinutes (ms : Int) : Int := -Int.fdiv (-ms) (60 * 1000)

/-- The message of the running-sync rejection (line 120). -/
def runningRateLimitMessage (timeDiff : Int) : String :=
  "Sync is currently running. Started " ++ toString (floorMinutes timeDiff) ++ " minute(s) ago."

/-- The message of the recent-terminal-sync rejection (line 138). -/
def terminalRateLimitMessage (status : SyncState) (timeDiff remainingTime : Int) : String :=
  "Rate limit exceeded. Last sync " ++ (if status = .completed then "completed" else "failed")
    ++ " " ++ toString (floorMinutes timeDiff) ++ " minute(s) ago. Please wait "
    ++ toString (ceilMinutes remainingTime) ++ " more minute(s)."

/-- Embeds `SyncService.checkRateLimit` (lines 103-144): reject while a running
sync is within the window measured from its start time, or a terminal
sync is within the window measured from its end time (falling back to its
start time when no end time is recorded). -/
def checkRateLimit (now : Int) (chainId : Nat) (entry : Option SyncStatus) :
    Option RateLimitError :=
  match entry with
  | none => none
  | some currentStatus =>
    if currentStatus.status = .running then
      let timeDiff := now - currentStatus.startTime
      if timeDiff < rateLimitMs then
        some { chainId := chainId, remainingTime := rateLimitMs - timeDiff,
               message := runningRateLimitMessage timeDiff }
      else none
    else if currentStatus.status = .completed ∨ currentStatus.status = .failed then
      let relevantTime := currentStatus.endTime.getD currentStatus.startTime
      let timeDiff := now - relevantTime
      if timeDiff < rateLimitMs then
        some { chainId := chainId, remainingTime := rateLimitMs - timeDiff,
               message := terminalRateLimitMessage currentStatus.status timeDiff (rateLimitMs - timeDiff) }
      else none
    else none

/-- Embeds `SyncService.calculateRemainingTime` (lines 150-173). -/
def calculateRemainingTime (now : Int) (entry : Option SyncStatus) : Int :=
  match entry with
  | none => 0
  | some currentStatus =>
    if currentStatus.status = .running then
      max 0 (rateLimitMs - (now - currentStatus.startTime))
    else if currentStatus.status = .completed ∨ currentStatus.status = .failed then
      max 0 (rateLimitMs - (now - currentStatus.endTime.getD currentStatus.startTime))
    else 0

/-- The fresh `Running` record built by `startSync` (lines 196-206). -/
def freshSyncStatus (chainId : Nat) (now : Int) : SyncStatus :=
  { chainId := chainId, status := .running, startTime := now, endTime := none,
    progress := some { phase := "initializing", current := 0, total := 0 },
    result := none, error := none, remainingTime := some rateLimitMs }

/-- What `startSync` returns: either the rate-limit rejection or a status
record. -/
inductive StartSyncResult where
  | rateLimited (e : RateLimitError)
  | status (s : SyncStatus)
  deriving DecidableEq

/-- Embeds `SyncService.startSync` (lines 175-221), restricted to its synchronous
part: the rate-limit gate, the running-status passthrough, and the
creation of the fresh `Running` record. The return value is paired with
the new map entry for the chain (the background `performSync` launch is
modelled separately). -/
def startSync (now : Int) (chainId : Nat) (entry : Option SyncStatus) :
    StartSyncResult × Option SyncStatus :=
  match checkRateLimit now chainId entry with
  | some rateLimitCheck => (.rateLimited rateLimitCheck, entry)
  | none =>
    match entry with
    | some existingStatus =>
      if existingStatus.status = .running then
        (.status { existingStatus with
                     remainingTime := some (calculateRemainingTime now entry) },
         entry)
      else
        (.status (freshSyncStatus chainId now), some (freshSyncStatus chainId now))
    | none =>
      (.status (freshSyncStatus chainId now), some (freshSyncStatus chainId now))

/-- C2: a `startSync` call made while the per-chain cool-down window has
not yet elapsed (from the start time of a running sync or the end time of
a terminal sync) returns a `RateLimited` signal carrying the remaining
wait time and leaves the map entry unchanged; a call made strictly after
the window has elapsed, with no still-running sync, creates and returns a
fresh `Running` status with phase `"initializing"`. -/
theorem startSync_rate_limit_gate (now : Int) (chainId : Nat) (st : SyncStatus) :
    (st.status = .running → now - st.startTime < rateLimitMs →
      ∃ e, startSync now chainId (some st) = (.rateLimited e, some st)
        ∧ e.remainingTime = rateLimitMs - (now - st.startTime) ∧ e.chainId = chainId)
    ∧ (∀ endT, (st.status = .completed ∨ st.status = .failed) → st.endTime = some endT →
        now - endT < rateLimitMs →
      ∃ e, startSync now chainId (some st) = (.rateLimited e, some st)
        ∧ e.remainingTime = rateLimitMs - (now - endT) ∧ e.chainId = chainId)
    ∧ (∀ endT, (st.status = .completed ∨ st.status = .failed) → st.endTime = some endT →
        rateLimitMs < now - endT →
      startSync now chainId (some st)
        = (.status (freshSyncStatus chainId now), some (freshSyncStatus chainId now))
        ∧ (freshSyncStatus chainId now).status = .running
        ∧ (freshSyncStatus chainId now).progress
            = some { phase := "initializing", current := 0, total := 0 }) := by
  refine ⟨?_, ?_, ?_⟩
  · intro hrun hlt
    refine ⟨{ chainId := chainId, remainingTime := rateLimitMs - (now - st.startTime), message := runningRateLimitMessage (now - st.startTime) }, ?_, rfl, rfl⟩
    simp [startSync, checkRateLimit, hrun, hlt]
  · intro endT hterm hend hlt
    have hnrun : ¬ st.status = SyncState.running := by
      cases hterm with
      | inl h => simp [h]
      | inr h => simp [h]
    refine ⟨{ chainId := chainId, remainingTime := rateLimitMs - (now - endT), message := terminalRateLimitMessage st.status (now - endT) (rateLimitMs - (now - endT)) }, ?_, rfl, rfl⟩
    simp [startSync, checkRateLimit, hnrun, hterm, hend, hlt]
  · intro endT hterm hend hlt
    have hnrun : ¬ st.status = SyncState.running := by
      cases hterm with
      | inl h => simp [h]
      | inr h => simp [h]
    have hnlt : ¬ (now - endT < rateLimitMs) := by omega
    refine ⟨?_, rfl, rfl⟩
    simp [startSync, checkRateLimit, hnrun, hterm, hend, hnlt]

/-- Witness for C2: with the 60000 ms window, a call 59999 ms after a
running sync's start is rejected with 1 ms remaining; a call 59999 ms
after a completed sync's end is rejected with 1 ms remaining; a call
60001 ms after the end is accepted and creates a fresh `Running` record
with phase `"initializing"`. -/
theorem startSync_rate_limit_gate_witness :
    (∃ e, startSync 59999 7 (some (freshSyncStatus 7 0))
        = (.rateLimited e, some (freshSyncStatus 7 0))
      ∧ e.remainingTime = rateLimitMs - (59999 - (freshSyncStatus 7 0).startTime)
      ∧ e.chainId = 7)
    ∧ (∃ e, startSync 60999 7
          (some { chainId := 7, status := .completed, startTime := 0, endTime := some 1000, progress := none, result := none, error := none, remainingTime := none })
        = (.rateLimited e, some { chainId := 7, status := .completed, startTime := 0, endTime := some 1000, progress := none, result := none, error := none, remainingTime := none })
      ∧ e.remainingTime = rateLimitMs - (60999 - 1000) ∧ e.chainId = 7)
    ∧ (startSync 61001 7
          (some { chainId := 7, status := .completed, startTime := 0, endTime := some 1000, progress := none, result := none, error := none, remainingTime := none })
        = (.status (freshSyncStatus 7 61001), some (freshSyncStatus 7 61001))
      ∧ (freshSyncStatus 7 61001).status = .running
      ∧ (freshSyncStatus 7 61001).progress
          = some { phase := "initializing", current := 0, total := 0 }) := by
  refine ⟨?_, ?_, ?_⟩
  · exact (startSync_rate_limit_gate 59999 7 (freshSyncStatus 7 0)).1 rfl (by decide)
  · exact (startSync_rate_limit_gate 60999 7 _).2.1 1000 (Or.inl rfl) rfl (by decide)
  · exact (startSync_rate_limit_gate 61001 7 _).2.2 1000 (Or.inl rfl) rfl (by decide)

/-! ### SyncService: lifecycle of one chain's SyncStatus entry

`updateSyncStatus` (lines 96-101) merges a partial record into the
current entry. The three update shapes that occur are the progress
updates, the completed update (`{status, endTime, result}`, with a final
progress at lines 333-338 and without one at lines 249-253), and the
failed update (`{status, endTime, error}`, lines 213-217 and 341-345). -/

/-- Embeds `updateSyncStatus(chainId, { progress })`. -/
def applyProgress (st : SyncStatus) (p : Progress) : SyncStatus :=
  { st with progress := some p }

/-- Embeds `updateSyncStatus(chainId, { status: 'completed', endTime, result })`,
optionally also carrying a final progress object. -/
def applyCompleted (st : SyncStatus) (endTime : Int) (r : SyncResult)
    (p : Option Progress) : SyncStatus :=
  { st with status := .completed, endTime := some endTime, result := some r,
            progress := match p with | some q => some q | none => st.progress }

/-- Embeds `updateSyncStatus(chainId, { status: 'failed', endTime, error })`. -/
def applyFailed (st : SyncStatus) (endTime : Int) (msg : String) : SyncStatus :=
  { st with status := .failed, endTime := some endTime, error := some msg }

/-- Reachable states of one chain's `syncStatuses` entry. A fresh entry is
created by `startSync` only when the gate passes and no running entry
exists (`startSync` returns an existing running status unchanged, lines
183-189, so it never overwrites a running entry). The progress, completed
and failed updates are issued only by the in-flight `performSync`
pipeline, which is launched exactly once per created entry and whose last
update is its single terminal one — hence those steps require the current
entry to be `running`. Entries are never deleted. -/
inductive ChainReachable (chainId : Nat) : Option SyncStatus → Prop where
  | init : ChainReachable chainId none
  | create (entry : Option SyncStatus) (now : Int)
      (h : ChainReachable chainId entry)
      (hgate : checkRateLimit now chainId entry = none)
      (hnorun : ∀ st, entry = some st → st.status ≠ .running) :
      ChainReachable chainId (some (freshSyncStatus chainId now))
  | progress (st : SyncStatus) (p : Progress)
      (h : ChainReachable chainId (some st)) (hrun : st.status = .running) :
      ChainReachable chainId (some (applyProgress st p))
  | complete (st : SyncStatus) (t : Int) (r : SyncResult) (p : Option Progress)
      (h : ChainReachable chainId (some st)) (hrun : st.status = .running) :
      ChainReachable chainId (some (applyCompleted st t r p))
  | fail (st : SyncStatus) (t : Int) (msg : String)
      (h : ChainReachable chainId (some st)) (hrun : st.status = .running) :
      ChainReachable chainId (some (applyFailed st t msg))

/-- C3: in every reachable state of a chain's SyncStatus entry, the status
is one of running/completed/failed (a single enum field, so terminal
states are mutually exclusive, and the relation `ChainReachable` has no
step from a terminal status back to running other than `create`, i.e. a
new `startSync`); the result field is populated iff the status is
`completed`; and a `failed` status carries an error message and no
result. -/
theorem syncStatus_terminal_invariant (chainId : Nat) (entry : Option SyncStatus)
    (h : ChainReachable chainId entry) :
    ∀ st, entry = some st →
      (st.status = .completed ↔ st.result.isSome)
      ∧ (st.status = .failed → st.error.isSome ∧ st.result = none)
      ∧ (st.status = .running → st.result = none) := by
  induction h with
  | init => intro st hst; cases hst
  | create entry now h hgate hnorun ih =>
    intro st hst
    cases hst
    refine ⟨?_, ?_, ?_⟩ <;> simp [freshSyncStatus]
  | progress st p h hrun ih =>
    intro st' hst'
    cases hst'
    have := ih st rfl
    simpa [applyProgress] using this
  | complete st t r p h hrun ih =>
    intro st' hst'
    cases hst'
    refine ⟨?_, ?_, ?_⟩ <;> simp [applyCompleted]
  | fail st t msg h hrun ih =>
    intro st' hst'
    cases hst'
    have hres : st.result = none := (ih st rfl).2.2 hrun
    refine ⟨?_, ?_, ?_⟩ <;> simp [applyFailed, hres]

/-- Witness for C3: the concrete run create → progress → complete of chain
7 reaches a completed entry satisfying the invariant. -/
theorem syncStatus_terminal_invariant_witness :
    ((applyCompleted (applyProgress (freshSyncStatus 7 0) { phase := "fetching tokens", current := 0, total := 1 }) 50 { chainId := 7, totalTokens := 0, existingImages := 0, migratedFromLocal := 0, downloadedImages := 0, failedDownloads := 0, duration := 50, details := [] } none).status = .completed
      ↔ (applyCompleted (applyProgress (freshSyncStatus 7 0) { phase := "fetching tokens", current := 0, total := 1 }) 50 { chainId := 7, totalTokens := 0, existingImages := 0, migratedFromLocal := 0, downloadedImages := 0, failedDownloads := 0, duration := 50, details := [] } none).result.isSome)
    ∧ ((applyCompleted (applyProgress (freshSyncStatus 7 0) { phase := "fetching tokens", current := 0, total := 1 }) 50 { chainId := 7, totalTokens := 0, existingImages := 0, migratedFromLocal := 0, downloadedImages := 0, failedDownloads := 0, duration := 50, details := [] } none).status = .failed →
        (applyCompleted (applyProgress (freshSyncStatus 7 0) { phase := "fetching tokens", current := 0, total := 1 }) 50 { chainId := 7, totalTokens := 0, existingImages := 0, migratedFromLocal := 0, downloadedImages := 0, failedDownloads := 0, duration := 50, details := [] } none).error.isSome
        ∧ (applyCompleted (applyProgress (freshSyncStatus 7 0) { phase := "fetching tokens", current := 0, total := 1 }) 50 { chainId := 7, totalTokens := 0, existingImages := 0, migratedFromLocal := 0, downloadedImages := 0, failedDownloads := 0, duration := 50, details := [] } none).result = none)
    ∧ ((applyCompleted (applyProgress (freshSyncStatus 7 0) { phase := "fetching tokens", current := 0, total := 1 }) 50 { chainId := 7, totalTokens := 0, existingImages := 0, migratedFromLocal := 0, downloadedImages := 0, failedDownloads := 0, duration := 50, details := [] } none).status = .running →
        (applyCompleted (applyProgress (freshSyncStatus 7 0) { phase := "fetching tokens", current := 0, total := 1 }) 50 { chainId := 7, totalTokens := 0, existingImages := 0, migratedFromLocal := 0, downloadedImages := 0, failedDownloads := 0, duration := 50, details := [] } none).result = none) := by
  have h1 : ChainReachable 7 (some (freshSyncStatus 7 0)) :=
    .create none 0 .init rfl (fun st hst => by cases hst)
  have h2 : ChainReachable 7
      (some (applyProgress (freshSyncStatus 7 0) { phase := "fetching tokens", current := 0, total := 1 })) :=
    .progress _ _ h1 rfl
  have h3 : ChainReachable 7
      (some (applyCompleted (applyProgress (freshSyncStatus 7 0) { phase := "fetching tokens", current := 0, total := 1 }) 50 { chainId := 7, totalTokens := 0, existingImages := 0, migratedFromLocal := 0, downloadedImages := 0, failedDownloads := 0, duration := 50, details := [] } none)) :=
    .complete _ 50 _ none h2 rfl
  exact syncStatus_terminal_invariant 7 _ h3 _ rfl

/-! ### SyncService: the performSync pipeline

External collaborators are abstracted as a `SyncEnv` giving the outcome
of each external call per token. Within a migration batch the code
collects the per-token closures with `Promise.allSettled` and pushes each
token's detail entry from its own closure; completion order only permutes
detail entries inside one batch, and every property proved below is
invariant under that permutation, so details are modelled in token
order. -/

/-- Embeds `TokenInfo` rows returned by the Euler token registry. -/
structure TokenInfo where
  address : String
  symbol : String
  name : String
  decimals : Nat
  deriving DecidableEq

/-- A `{ chainId, address }` pair as passed between pipeline phases. -/
structure TokenKey where
  chainId : Nat
  address : String
  deriving DecidableEq

/-- Outcome of `fetch(eulerApiUrl/v1/tokens?chainId=N)`: a parsed token
list, a non-ok HTTP response, or a network error. -/
inductive RegistryOutcome where
  | ok (tokens : List TokenInfo)
  | httpError (status : Nat)
  | netError
  deriving DecidableEq

/-- Outcome of one `uploadImageToStorage` call for a token: a success
boolean, or a thrown exception. -/
inductive UploadOutcome where
  | ok (success : Bool)
  | throws
  deriving DecidableEq

/-- The environment of one `performSync` run: outcomes of every external
interaction, per token. `fatal` models an unexpected exception escaping
the sequential phases (caught once at the top, lines 339-346). -/
structure SyncEnv where
  registry : RegistryOutcome
  storageExists : Nat → String → Bool
  localAvailable : Bool
  hasLocal : Nat → String → Bool
  localFetch : Nat → String → FetchOutcome
  chainFetch : Nat → String → FetchOutcome
  uploadOutcome : Nat → String → UploadOutcome
  httpGet : String → Option Buffer
  fatal : Option String

/-- Embeds `SyncService.fetchTokensFromEuler` (lines 401-416): a non-ok response
or a thrown fetch both yield the empty list. -/
def fetchTokensFromEuler (env : SyncEnv) : List TokenInfo :=
  match env.registry with
  | .ok tokens => tokens
  | .httpError _ => []
  | .netError => []

/-- One token's migration attempt (`migrateLocalImages` batch closure,
lines 445-503): fetch the local image, require a buffer, upload tagged
`local-migration`; every failure path records a `failed` detail. Returns
(success, detail). -/
def migrateToken (env : SyncEnv) (t : TokenKey) : Bool × Detail :=
  if !env.localAvailable then
    (false, { address := t.address, status := "failed", provider := none })
  else match env.localFetch t.chainId t.address with
    | .throws => (false, { address := t.address, status := "failed", provider := some "local-migration" })
    | .ok none => (false, { address := t.address, status := "failed", provider := none })
    | .ok (some localImage) =>
      match localImage.buffer with
      | none => (false, { address := t.address, status := "failed", provider := none })
      | some _ =>
        match env.uploadOutcome t.chainId t.address with
        | .throws => (false, { address := t.address, status := "failed", provider := some "local-migration" })
        | .ok true => (true, { address := t.address, status := "migrated", provider := some "local-migration" })
        | .ok false => (false, { address := t.address, status := "failed", provider := some "local-migration" })

/-- Aggregate of `migrateLocalImages`. -/
structure MigrationOutcome where
  migrated : Nat
  failed : Nat
  details : List Detail
  deriving DecidableEq

/-- Embeds `SyncService.migrateLocalImages` (lines 418-523): process the tokens
in batches of 20, settle each batch fully (`Promise.allSettled`), count
successes and failures, and accumulate per-token details; the inter-batch
delay has no observable effect here. -/
def migrateLocalImages (env : SyncEnv) (tokensWithLocal : List TokenKey) :
    MigrationOutcome :=
  if h : tokensWithLocal = [] then { migrated := 0, failed := 0, details := [] }
  else
    let batch := tokensWithLocal.take 20
    let rest := tokensWithLocal.drop 20
    let batchResults := batch.map (migrateToken env)
    let tail := migrateLocalImages env rest
    { migrated := (batchResults.filter (fun r => r.1)).length + tail.migrated,
      failed := (batchResults.filter (fun r => !r.1)).length + tail.failed,
      details := batchResults.map (fun r => r.2) ++ tail.details }
termination_by tokensWithLocal.length
decreasing_by
  have hlen : tokensWithLocal.length ≠ 0 :=
    fun hh => h (List.eq_nil_of_length_eq_zero hh)
  simp
  omega

/-- One token's download attempt (`downloadMissingImages` loop body,
lines 549-620): resolve through the provider chain, take the buffer or
fetch the URL (an empty-string URL is falsy in JavaScript and is
skipped), upload, and record the outcome; a thrown exception is caught
and recorded as `failed` with no provider credited. -/
def downloadToken (env : SyncEnv) (t : TokenKey) : Bool × Detail :=
  match env.chainFetch t.chainId t.address with
  | .throws => (false, { address := t.address, status := "failed", provider := none })
  | .ok none => (false, { address := t.address, status := "failed", provider := none })
  | .ok (some imageResult) =>
    let imageBuffer : Option Buffer :=
      match imageResult.buffer with
      | some b => some b
      | none =>
        match imageResult.url with
        | some u => if u = "" then none else env.httpGet u
        | none => none
    match imageBuffer with
    | none => (false, { address := t.address, status := "failed", provider := some imageResult.provider })
    | some _ =>
      match env.uploadOutcome t.chainId t.address with
      | .throws => (false, { address := t.address, status := "failed", provider := none })
      | .ok true => (true, { address := t.address, status := "downloaded", provider := some imageResult.provider })
      | .ok false => (false, { address := t.address, status := "failed", provider := some imageResult.provider })

/-- Aggregate of `downloadMissingImages`. -/
structure DownloadOutcome where
  downloaded : Nat
  failed : Nat
  details : List Detail
  deriving DecidableEq

/-- Embeds `SyncService.downloadMissingImages` (lines 525-624): process the
still-missing tokens one by one (the per-token delay has no observable
effect here), recording one detail per token. -/
def downloadMissingImages (env : SyncEnv) : List TokenKey → DownloadOutcome
  | [] => { downloaded := 0, failed := 0, details := [] }
  | t :: rest =>
    let r := downloadToken env t
    let tail := downloadMissingImages env rest
    { downloaded := (if r.1 then 1 else 0) + tail.downloaded,
      failed := (if r.1 then 0 else 1) + tail.failed,
      details := r.2 :: tail.details }

/-- The lowercased `{chainId, address}` list built at `performSync` lines
262-265. -/
def syncTokenList (env : SyncEnv) (chainId : Nat) : List TokenKey :=
  (fetchTokensFromEuler env).map
    (fun token => { chainId := chainId, address := jsToLower token.address })

/-- Embeds `bulkCheckImagesInStorage(tokenList)` as consumed at line 273: each
entry paired with its existence flag. -/
def existenceChecks (env : SyncEnv) (chainId : Nat) : List (TokenKey × Bool) :=
  (syncTokenList env chainId).map (fun t => (t, env.storageExists t.chainId t.address))

/-- Embeds `missingFromStorage` (line 276). -/
def missingFromStorage (env : SyncEnv) (chainId : Nat) : List TokenKey :=
  ((existenceChecks env chainId).filter (fun c => !c.2)).map (fun c => c.1)

/-- Embeds `localChecks` (lines 287-290): the Local provider's bulk check, or
all-false when the Local provider is absent. -/
def localChecks (env : SyncEnv) (chainId : Nat) : List (TokenKey × Bool) :=
  if env.localAvailable then
    (missingFromStorage env chainId).map (fun t => (t, env.hasLocal t.chainId t.address))
  else
    (missingFromStorage env chainId).map (fun t => (t, false))

/-- Embeds `hasLocalImages` (line 292). -/
def hasLocalImages (env : SyncEnv) (chainId : Nat) : List TokenKey :=
  ((localChecks env chainId).filter (fun c => c.2)).map (fun c => c.1)

/-- Embeds `stillMissingTokens` (line 293). -/
def stillMissingTokens (env : SyncEnv) (chainId : Nat) : List TokenKey :=
  ((localChecks env chainId).filter (fun c => !c.2)).map (fun c => c.1)

/-- The all-zero `SyncResult` produced for an empty token list (lines
238-247). -/
def zeroSyncResult (chainId : Nat) (duration : Int) : SyncResult :=
  { chainId := chainId, totalTokens := 0, existingImages := 0,
    migratedFromLocal := 0, downloadedImages := 0, failedDownloads := 0,
    duration := duration, details := [] }

/-- The `SyncResult` compiled by `performSync` (lines 237-255 for the
empty case, lines 309-328 otherwise); `t0` is the `Date.now()` at entry
and `t1` the `Date.now()` at result assembly. -/
def performSyncResult (env : SyncEnv) (chainId : Nat) (t0 t1 : Int) : SyncResult :=
  let tokens := fetchTokensFromEuler env
  if tokens.isEmpty then
    zeroSyncResult chainId (t1 - t0)
  else
    let mig := migrateLocalImages env (hasLocalImages env chainId)
    let dl := downloadMissingImages env (stillMissingTokens env chainId)
    { chainId := chainId,
      totalTokens := tokens.length,
      existingImages := (existenceChecks env chainId).length - (missingFromStorage env chainId).length,
      migratedFromLocal := mig.migrated,
      downloadedImages := dl.downloaded,
      failedDownloads := mig.failed + dl.failed,
      duration := t1 - t0,
      details :=
        ((existenceChecks env chainId).filter (fun c => c.2)).map
          (fun c => { address := c.1.address, status := "exists", provider := none })
        ++ mig.details ++ dl.details }

/-- The terminal update `performSync` applies to the chain's status entry:
`Failed` when an exception escapes the phases (lines 339-346), otherwise
`Completed` with the compiled result (without a final progress for the
empty-list early return, with one otherwise). -/
def performSyncStep (env : SyncEnv) (chainId : Nat) (t0 t1 : Int)
    (st : SyncStatus) : SyncStatus :=
  match env.fatal with
  | some msg => applyFailed st t1 msg
  | none =>
    let tokens := fetchTokensFromEuler env
    if tokens.isEmpty then
      applyCompleted st t1 (performSyncResult env chainId t0 t1) none
    else
      applyCompleted st t1 (performSyncResult env chainId t0 t1)
        (some { phase := "completed", current := tokens.length, total := tokens.length })

/-! ### Pipeline lemmas -/

theorem migrateLocalImages_bounded (env : SyncEnv) :
    ∀ (n : Nat) (ts : List TokenKey), ts.length ≤ n →
      migrateLocalImages env ts =
        { migrated := (ts.filter (fun t => (migrateToken env t).1)).length,
          failed := (ts.filter (fun t => !(migrateToken env t).1)).length,
          details := ts.map (fun t => (migrateToken env t).2) } := by
  intro n
  induction n with
  | zero =>
    intro ts hts
    have hnil : ts = [] := List.eq_nil_of_length_eq_zero (Nat.le_zero.mp hts)
    subst hnil
    simp [migrateLocalImages]
  | succ n ih =>
    intro ts hts
    by_cases hnil : ts = []
    · subst hnil
      simp [migrateLocalImages]
    · rw [migrateLocalImages, dif_neg hnil]
      have hpos : ts.length ≠ 0 :=
        fun hh => hnil (List.eq_nil_of_length_eq_zero hh)
      have hrest : (ts.drop 20).length ≤ n := by
        simp only [List.length_drop]
        omega
      dsimp only
      rw [ih (ts.drop 20) hrest]
      have hcount : ∀ p : Bool × Detail → Bool,
          (((ts.take 20).map (migrateToken env)).filter p).length
            = ((ts.take 20).filter (fun t => p (migrateToken env t))).length := by
        intro p
        rw [List.filter_map]
        simp [Function.comp_def]
      simp only [MigrationOutcome.mk.injEq]
      refine ⟨?_, ?_, ?_⟩
      · rw [hcount]
        conv_rhs => rw [← List.take_append_drop 20 ts]
        rw [List.filter_append, List.length_append]
      · rw [hcount]
        conv_rhs => rw [← List.take_append_drop 20 ts]
        rw [List.filter_append, List.length_append]
      · rw [List.map_map]
        conv_rhs => rw [← List.take_append_drop 20 ts]
        rw [List.map_append]
        simp [Function.comp_def]

/-- Isolation: `migrateLocalImages` processes every token independently: the detail
list is exactly the per-token outcome map, and the counters count the
per-token successes and failures. -/
theorem migrateLocalImages_spec (env : SyncEnv) (ts : List TokenKey) :
    migrateLocalImages env ts =
      { migrated := (ts.filter (fun t => (migrateToken env t).1)).length,
        failed := (ts.filter (fun t => !(migrateToken env t).1)).length,
        details := ts.map (fun t => (migrateToken env t).2) } :=
  migrateLocalImages_bounded env ts.length ts (Nat.le_refl _)

/-- Isolation: `downloadMissingImages` processes every token independently. -/
theorem downloadMissingImages_spec (env : SyncEnv) (ts : List TokenKey) :
    downloadMissingImages env ts =
      { downloaded := (ts.filter (fun t => (downloadToken env t).1)).length,
        failed := (ts.filter (fun t => !(downloadToken env t).1)).length,
        details := ts.map (fun t => (downloadToken env t).2) } := by
  induction ts with
  | nil => simp [downloadMissingImages]
  | cons t rest ih =>
    rw [downloadMissingImages, ih]
    by_cases hok : (downloadToken env t).1
    · simp [hok, List.filter_cons, Nat.add_comm]
    · simp [hok, List.filter_cons, Nat.add_comm]

/-- Every detail entry produced by `migrateToken` carries the token's own
address. -/
theorem migrateToken_address (env : SyncEnv) (t : TokenKey) :
    ((migrateToken env t).2).address = t.address := by
  unfold migrateToken
  repeat' split
  all_goals rfl

/-- Every detail entry produced by `downloadToken` carries the token's own
address. -/
theorem downloadToken_address (env : SyncEnv) (t : TokenKey) :
    ((downloadToken env t).2).address = t.address := by
  unfold downloadToken
  repeat' split
  all_goals try rfl
  all_goals (dsimp only; (repeat' split) <;> rfl)

theorem localChecks_map_fst (env : SyncEnv) (chainId : Nat) :
    (localChecks env chainId).map (fun c => c.1) = missingFromStorage env chainId := by
  unfold localChecks
  by_cases h : env.localAvailable <;> simp [h, List.map_map, Function.comp_def]

theorem hasLocal_still_perm (env : SyncEnv) (chainId : Nat) :
    ((hasLocalImages env chainId) ++ (stillMissingTokens env chainId)).Perm
      (missingFromStorage env chainId) := by
  unfold hasLocalImages stillMissingTokens
  have h := (List.filter_append_perm (fun c => c.2) (localChecks env chainId)).map
    (fun c => c.1)
  rw [List.map_append, localChecks_map_fst] at h
  exact h

theorem existenceChecks_map_fst (env : SyncEnv) (chainId : Nat) :
    (existenceChecks env chainId).map (fun c => c.1) = syncTokenList env chainId := by
  unfold existenceChecks
  simp [List.map_map, Function.comp_def]

theorem exists_missing_perm (env : SyncEnv) (chainId : Nat) :
    (((existenceChecks env chainId).filter (fun c => c.2)).map (fun c => c.1)
      ++ missingFromStorage env chainId).Perm (syncTokenList env chainId) := by
  unfold missingFromStorage
  have h := (List.filter_append_perm (fun c => c.2) (existenceChecks env chainId)).map
    (fun c => c.1)
  rw [List.map_append, existenceChecks_map_fst] at h
  exact h

/-- C5: in every migration or download batch, each token is processed and
tagged with its own per-token outcome (one detail entry per token,
independent of the other tokens), the failure counters count exactly the
tokens whose own attempt failed, and the aggregate `failedDownloads` of
the compiled `SyncResult` is exactly the number of failed migration
tokens plus the number of failed download tokens. -/
theorem per_token_failure_isolation (env : SyncEnv) (ts : List TokenKey)
    (chainId : Nat) (t0 t1 : Int) :
    (migrateLocalImages env ts).details = ts.map (fun t => (migrateToken env t).2)
    ∧ (migrateLocalImages env ts).failed
        = (ts.filter (fun t => !(migrateToken env t).1)).length
    ∧ (downloadMissingImages env ts).details = ts.map (fun t => (downloadToken env t).2)
    ∧ (downloadMissingImages env ts).failed
        = (ts.filter (fun t => !(downloadToken env t).1)).length
    ∧ (performSyncResult env chainId t0 t1).failedDownloads
        = ((hasLocalImages env chainId).filter (fun t => !(migrateToken env t).1)).length
          + ((stillMissingTokens env chainId).filter (fun t => !(downloadToken env t).1)).length := by
  rw [migrateLocalImages_spec, downloadMissingImages_spec]
  refine ⟨rfl, rfl, rfl, rfl, ?_⟩
  unfold performSyncResult
  by_cases hemp : (fetchTokensFromEuler env).isEmpty
  · have hnil : fetchTokensFromEuler env = [] := List.isEmpty_iff.mp hemp
    simp [hemp, zeroSyncResult, hasLocalImages, stillMissingTokens, localChecks,
      missingFromStorage, existenceChecks, syncTokenList, hnil]
  · simp [hemp, migrateLocalImages_spec, downloadMissingImages_spec]

/-- C6: when the token-registry fetch yields an empty list (including the
non-ok-response and network-error cases, which `fetchTokensFromEuler`
maps to the empty list) and no exception escapes the phases, the sync
immediately completes with an all-zero `SyncResult`, an empty detail
list, and a non-negative duration whenever the finish time is not before
the start time. -/
theorem empty_chain_completes (env : SyncEnv) (chainId : Nat) (t0 t1 : Int)
    (st : SyncStatus)
    (hempty : fetchTokensFromEuler env = [])
    (hfatal : env.fatal = none) :
    performSyncStep env chainId t0 t1 st
      = applyCompleted st t1 (zeroSyncResult chainId (t1 - t0)) none
    ∧ (performSyncStep env chainId t0 t1 st).status = .completed
    ∧ (performSyncStep env chainId t0 t1 st).result
        = some (zeroSyncResult chainId (t1 - t0))
    ∧ (zeroSyncResult chainId (t1 - t0)).totalTokens = 0
    ∧ (zeroSyncResult chainId (t1 - t0)).existingImages = 0
    ∧ (zeroSyncResult chainId (t1 - t0)).migratedFromLocal = 0
    ∧ (zeroSyncResult chainId (t1 - t0)).downloadedImages = 0
    ∧ (zeroSyncResult chainId (t1 - t0)).failedDownloads = 0
    ∧ (zeroSyncResult chainId (t1 - t0)).details = []
    ∧ (t0 ≤ t1 → 0 ≤ (zeroSyncResult chainId (t1 - t0)).duration) := by
  have hstep : performSyncStep env chainId t0 t1 st
      = applyCompleted st t1 (zeroSyncResult chainId (t1 - t0)) none := by
    simp [performSyncStep, hfatal, hempty, performSyncResult]
  refine ⟨hstep, ?_, ?_, rfl, rfl, rfl, rfl, rfl, rfl, ?_⟩
  · rw [hstep]
    rfl
  · rw [hstep]
    rfl
  · intro hle
    simp only [zeroSyncResult]
    omega

/-- Witness for C6: a registry that answers HTTP 500 for chain 5 yields an
immediately completed status carrying the all-zero result. -/
theorem empty_chain_completes_witness :
    (performSyncStep { registry := .httpError 500, storageExists := fun _ _ => false, localAvailable := true, hasLocal := fun _ _ => false, localFetch := fun _ _ => .ok none, chainFetch := fun _ _ => .ok none, uploadOutcome := fun _ _ => .ok true, httpGet := fun _ => none, fatal := none } 5 0 42 (freshSyncStatus 5 0)).status = .completed
    ∧ (performSyncStep { registry := .httpError 500, storageExists := fun _ _ => false, localAvailable := true, hasLocal := fun _ _ => false, localFetch := fun _ _ => .ok none, chainFetch := fun _ _ => .ok none, uploadOutcome := fun _ _ => .ok true, httpGet := fun _ => none, fatal := none } 5 0 42 (freshSyncStatus 5 0)).result
        = some (zeroSyncResult 5 (42 - 0))
    ∧ (zeroSyncResult 5 (42 - 0)).totalTokens = 0
    ∧ (zeroSyncResult 5 (42 - 0)).details = []
    ∧ 0 ≤ (zeroSyncResult 5 (42 - 0)).duration := by
  have h := empty_chain_completes
    { registry := .httpError 500, storageExists := fun _ _ => false, localAvailable := true, hasLocal := fun _ _ => false, localFetch := fun _ _ => .ok none, chainFetch := fun _ _ => .ok none, uploadOutcome := fun _ _ => .ok true, httpGet := fun _ => none, fatal := none }
    5 0 42 (freshSyncStatus 5 0) rfl rfl
  exact ⟨h.2.1, h.2.2.1, h.2.2.2.1, h.2.2.2.2.2.2.2.2.1, h.2.2.2.2.2.2.2.2.2 (by decide)⟩

/-- C10: for every sync run, the compiled `SyncResult` satisfies
`existingImages + migratedFromLocal + downloadedImages + failedDownloads
= totalTokens`, and the detail list carries exactly one entry per token
of the chain's token list (the multiset of detail addresses equals the
multiset of lowercased token addresses; each entry carries a single
outcome tag by construction). This holds for every token list, in
particular every non-empty one. -/
theorem sync_result_accounting (env : SyncEnv) (chainId : Nat) (t0 t1 : Int) :
    (performSyncResult env chainId t0 t1).existingImages
      + (performSyncResult env chainId t0 t1).migratedFromLocal
      + (performSyncResult env chainId t0 t1).downloadedImages
      + (performSyncResult env chainId t0 t1).failedDownloads
      = (performSyncResult env chainId t0 t1).totalTokens
    ∧ ((performSyncResult env chainId t0 t1).details.map (fun d => d.address)).Perm
        ((fetchTokensFromEuler env).map (fun token => jsToLower token.address)) := by
  by_cases hemp : (fetchTokensFromEuler env).isEmpty
  · have hnil : fetchTokensFromEuler env = [] := List.isEmpty_iff.mp hemp
    constructor
    · simp [performSyncResult, hemp, zeroSyncResult]
    · simp [performSyncResult, hemp, zeroSyncResult, hnil]
  · have hcount1 : (migrateLocalImages env (hasLocalImages env chainId)).migrated
        + (migrateLocalImages env (hasLocalImages env chainId)).failed
        = (hasLocalImages env chainId).length := by
      rw [migrateLocalImages_spec]
      have := (List.filter_append_perm (fun t => (migrateToken env t).1)
        (hasLocalImages env chainId)).length_eq
      rw [List.length_append] at this
      exact this
    have hcount2 : (downloadMissingImages env (stillMissingTokens env chainId)).downloaded
        + (downloadMissingImages env (stillMissingTokens env chainId)).failed
        = (stillMissingTokens env chainId).length := by
      rw [downloadMissingImages_spec]
      have := (List.filter_append_perm (fun t => (downloadToken env t).1)
        (stillMissingTokens env chainId)).length_eq
      rw [List.length_append] at this
      exact this
    have hcount3 : (hasLocalImages env chainId).length
        + (stillMissingTokens env chainId).length
        = (missingFromStorage env chainId).length := by
      have := (hasLocal_still_perm env chainId).length_eq
      rw [List.length_append] at this
      exact this
    have hcount4 : (missingFromStorage env chainId).length
        ≤ (existenceChecks env chainId).length := by
      unfold missingFromStorage
      rw [List.length_map]
      exact List.length_filter_le _ _
    have hcount5 : (existenceChecks env chainId).length
        = (fetchTokensFromEuler env).length := by
      unfold existenceChecks syncTokenList
      simp
    constructor
    · simp only [performSyncResult, hemp, Bool.false_eq_true, if_false, ite_false]
      omega
    · simp only [performSyncResult, hemp, Bool.false_eq_true, if_false, ite_false]
      rw [migrateLocalImages_spec, downloadMissingImages_spec]
      simp only [List.map_append, List.map_map]
      have e2 : (hasLocalImages env chainId).map
          ((fun d => d.address) ∘ fun t => (migrateToken env t).2)
          = (hasLocalImages env chainId).map (fun t => t.address) := by
        apply List.map_congr_left
        intro t _
        simp [Function.comp_def, migrateToken_address]
      have e3 : (stillMissingTokens env chainId).map
          ((fun d => d.address) ∘ fun t => (downloadToken env t).2)
          = (stillMissingTokens env chainId).map (fun t => t.address) := by
        apply List.map_congr_left
        intro t _
        simp [Function.comp_def, downloadToken_address]
      rw [e2, e3, List.append_assoc]
      have p1 : ((hasLocalImages env chainId).map (fun t => t.address)
          ++ (stillMissingTokens env chainId).map (fun t => t.address)).Perm
          ((missingFromStorage env chainId).map (fun t => t.address)) := by
        have := (hasLocal_still_perm env chainId).map (fun t => t.address)
        rw [List.map_append] at this
        exact this
      have p2 : (((existenceChecks env chainId).filter (fun c => c.2)).map
            ((fun d => d.address) ∘ fun c =>
              ({ address := c.1.address, status := "exists", provider := none } : Detail))
          ++ (missingFromStorage env chainId).map (fun t => t.address)).Perm
          ((syncTokenList env chainId).map (fun t => t.address)) := by
        have h := (exists_missing_perm env chainId).map (fun t => t.address)
        rw [List.map_append, List.map_map] at h
        exact h
      have ptotal := (List.Perm.append_left _ p1).trans p2
      refine ptotal.trans ?_
      unfold syncTokenList
      rw [List.map_map]
      apply List.Perm.of_eq
      apply List.map_congr_left
      intro t _
      simp [Function.comp_def]

/-! ### Storage gateway: the S3 key convention
(`image-storage-service.ts`, embedded from `src/src/services/sync-service.ts`
lines 644-997). The S3 transport is modelled as a key-to-object map; a
successful `PutObject` is a map update. -/

/-- The metadata attached to an uploaded image. -/
structure StorageMetadata where
  provider : String
  downloadDate : String
  originalUrl : Option String
  deriving DecidableEq

/-- A stored S3 object: body, content type, and user metadata (the
`extension` metadata field drives content-type recovery on read). -/
structure StoredObject where
  body : Buffer
  contentType : String
  metaExtension : Option String
  metadata : StorageMetadata
  deriving DecidableEq

/-- Embeds `getMimeType` (lines 678-695). -/
def getMimeType (extension : String) : String :=
  let cleanExtension := if extension.startsWith "." then extension.drop 1 else extension
  match jsToLower cleanExtension with
  | "png" => "image/png"
  | "jpg" => "image/jpeg"
  | "jpeg" => "image/jpeg"
  | "webp" => "image/webp"
  | "svg" => "image/svg+xml"
  | "gif" => "image/gif"
  | "bmp" => "image/bmp"
  | "ico" => "image/x-icon"
  | "tiff" => "image/tiff"
  | "tif" => "image/tiff"
  | _ => "application/octet-stream"

/-- The object key `${chainId}/${address.toLowerCase()}/image` used by
`getImageFromS3` (line 722), `checkImageExistsInS3` (line 777) and
`uploadImageToS3` (line 804). -/
def s3Key (chainId : Nat) (address : String) : String :=
  toString chainId ++ "/" ++ jsToLower address ++ "/" ++ "image"

/-- The S3 bucket contents, keyed by object key. -/
def S3Store := String → Option StoredObject

/-- Embeds `checkImageExistsInS3` (lines 770-788): a `HeadObject` on the
lowercased key. -/
def checkImageExistsInS3 (store : S3Store) (chainId : Nat) (address : String) : Bool :=
  (store (s3Key chainId address)).isSome

/-- Embeds `uploadImageToS3` (lines 790-827): a `PutObject` of the body under the
lowercased key with content type derived from the extension and the
extension recorded in metadata; returns the updated bucket. -/
def uploadImageToS3 (store : S3Store) (chainId : Nat) (address : String)
    (imageBuffer : Buffer) (extension : String) (meta : StorageMetadata) : S3Store :=
  fun key =>
    if key = s3Key chainId address then
      some { body := imageBuffer, contentType := getMimeType extension,
             metaExtension := some extension, metadata := meta }
    else store key

/-- Embeds `getImageFromS3` (lines 715-768): a `GetObject` on the lowercased key;
when the `extension` metadata field is present the content type is
recomputed from it. Returns (body, contentType, extension). -/
def getImageFromS3 (store : S3Store) (chainId : Nat) (address : String) :
    Option (Buffer × String × Option String) :=
  match store (s3Key chainId address) with
  | none => none
  | some obj =>
    match obj.metaExtension with
    | some e => some (obj.body, getMimeType e, some e)
    | none => some (obj.body, obj.contentType, none)

/-- Embeds `bulkCheckImagesInStorage` (lines 981-997) in S3 mode: one existence
flag per input token, in input order (`Promise.allSettled` keeps the
positional mapping). -/
def bulkCheckImagesInStorage (store : S3Store) (tokens : List TokenKey) :
    List (TokenKey × Bool) :=
  tokens.map (fun t => (t, checkImageExistsInS3 store t.chainId t.address))

/-- C8: the storage existence check, read and write all use the identical
lowercased key, so two addresses differing only in letter case share one
storage entry: a write under one casing is observed by a check or a read
under the other, and the bulk existence check over the two casings (which
`performSync` lowercases at lines 262-265 before checking) produces two
identical entries, never two distinct missing entries. -/
theorem storage_key_case_insensitive (store : S3Store) (chainId : Nat)
    (a1 a2 : String) (h : jsToLower a1 = jsToLower a2)
    (buf : Buffer) (ext : String) (meta : StorageMetadata) :
    s3Key chainId a1 = s3Key chainId a2
    ∧ checkImageExistsInS3 (uploadImageToS3 store chainId a1 buf ext meta) chainId a2 = true
    ∧ getImageFromS3 (uploadImageToS3 store chainId a1 buf ext meta) chainId a2
        = some (buf, getMimeType ext, some ext)
    ∧ bulkCheckImagesInStorage store
        [{ chainId := chainId, address := jsToLower a1 },
         { chainId := chainId, address := jsToLower a2 }]
        = [({ chainId := chainId, address := jsToLower a1 },
            checkImageExistsInS3 store chainId (jsToLower a1)),
           ({ chainId := chainId, address := jsToLower a1 },
            checkImageExistsInS3 store chainId (jsToLower a1))] := by
  have hkey : s3Key chainId a1 = s3Key chainId a2 := by
    unfold s3Key
    rw [h]
  refine ⟨hkey, ?_, ?_, ?_⟩
  · unfold checkImageExistsInS3 uploadImageToS3
    rw [if_pos hkey.symm]
    rfl
  · unfold getImageFromS3 uploadImageToS3
    rw [if_pos hkey.symm]
  · rw [← h]
    rfl

/-- Witness for C8: writing under `0xAbCd` and checking/reading under
`0xABCD` observes the written object, and the bulk check over both
lowercased casings returns two identical entries. -/
theorem storage_key_case_insensitive_witness :
    s3Key 1 "0xAbCd" = s3Key 1 "0xABCD"
    ∧ checkImageExistsInS3
        (uploadImageToS3 (fun _ => none) 1 "0xAbCd" [7] "png" { provider := "coingecko", downloadDate := "2025-01-01", originalUrl := none }) 1 "0xABCD" = true
    ∧ getImageFromS3
        (uploadImageToS3 (fun _ => none) 1 "0xAbCd" [7] "png" { provider := "coingecko", downloadDate := "2025-01-01", originalUrl := none }) 1 "0xABCD"
        = some ([7], getMimeType "png", some "png")
    ∧ bulkCheckImagesInStorage (fun _ => none)
        [{ chainId := 1, address := jsToLower "0xAbCd" },
         { chainId := 1, address := jsToLower "0xABCD" }]
        = [({ chainId := 1, address := jsToLower "0xAbCd" },
            checkImageExistsInS3 (fun _ => none) 1 (jsToLower "0xAbCd")),
           ({ chainId := 1, address := jsToLower "0xAbCd" },
            checkImageExistsInS3 (fun _ => none) 1 (jsToLower "0xAbCd"))] :=
  storage_key_case_insensitive (fun _ => none) 1 "0xAbCd" "0xABCD" (by decide)
    [7] "png" { provider := "coingecko", downloadDate := "2025-01-01", originalUrl := none }

/-! ### Providers: LocalImagesProvider and CoinGeckoProvider
(`local-images-provider.ts`, `coingecko-provider.ts`) -/

/-- JavaScript's `String.prototype.startsWith`, spelled out over the
character list so that concrete instances reduce. -/
def jsStartsWith (s pre : String) : Bool :=
  decide (s.data.take pre.data.length = pre.data)

/-- Split a character list on a separator character. -/
def splitChar (c : Char) : List Char → List Char → List (List Char)
  | [], acc => [acc.reverse]
  | x :: xs, acc =>
    if x = c then acc.reverse :: splitChar c xs []
    else splitChar c xs (x :: acc)

/-- JavaScript's `"...".split(".")`: the pieces between dots (never empty
as a list; a trailing dot yields a final empty piece, as in JS). -/
def jsSplitDot (s : String) : List String :=
  (splitChar '.' s.data []).map String.mk

/-- Embeds `readdir` outcome for the token's directory. -/
inductive ReaddirOutcome where
  | ok (files : List String)
  | throws
  deriving DecidableEq

/-- Filesystem view of one token's directory
`images/{chainId}/{address}`: whether the directory exists, what
`readdir` yields, and what `readFile` on the found image yields (`none`
models a thrown read, caught by the provider). -/
structure LocalEnv where
  dirExists : Bool
  files : ReaddirOutcome
  readFileOutcome : Option Buffer
  deriving DecidableEq

/-- Embeds `LocalImagesProvider.fetchImage` (`local-images-provider.ts` lines
141-174): find the first `image.*` file in the token directory, take the
extension from the file name (`split(".").pop()`, rejected only when
empty), read the bytes, and return a buffer result tagged `local`. The
`path` is the file path relative to the provider's base directory. -/
def localFetchImage (env : LocalEnv) (chainId : Nat) (address : String) :
    Option ImageResult :=
  if !env.dirExists then none
  else match env.files with
    | .throws => none
    | .ok files =>
      match files.find? (fun file => jsStartsWith file "image.") with
      | none => none
      | some imageFile =>
        match (jsSplitDot imageFile).getLast? with
        | none => none
        | some extension =>
          if extension = "" then none
          else match env.readFileOutcome with
            | none => none
            | some buffer =>
              some { url := none, buffer := some buffer, provider := "local",
                     extension := extension,
                     path := some (toString chainId ++ "/" ++ jsToLower address ++ "/" ++ imageFile) }

/-- Outcome of the CoinGecko contract endpoint call: the parsed
`data.image?.large` field, a non-ok response, or a thrown fetch. -/
inductive HttpJsonOutcome where
  | ok (imageLarge : Option String)
  | notOk
  | throws
  deriving DecidableEq

/-- Environment of one `CoinGeckoProvider.fetchImage` call: the API key,
the HTTP outcome, and the URL parser (`new URL(url).pathname`; `none`
models a URL-constructor throw, caught in `getExtensionFromUrl`). -/
structure CGEnv where
  apiKey : String
  response : HttpJsonOutcome
  pathnameOf : String → Option String

/-- Embeds `chainIdToCoingeckoId` (`coingecko-provider.ts` lines 9-20). -/
def cgChainIdToCoingeckoId (chainId : Nat) : Option String :=
  match chainId with
  | 1 => some "ethereum"
  | 56 => some "binance-smart-chain"
  | 146 => some "sonic"
  | 8453 => some "base"
  | 42161 => some "arbitrum-one"
  | 43114 => some "avalanche"
  | 1923 => some "sonic"
  | 60808 => some "bob"
  | 80094 => some "berachain"
  | 130 => some "unichain"
  | _ => none

/-- Embeds `CoinGeckoProvider.getExtensionFromUrl` (lines 72-91): the lowercased
last dot-piece of the URL pathname when it is one of png/jpg/jpeg/webp/svg,
otherwise the `png` fallback (also used when URL parsing throws). -/
def cgGetExtensionFromUrl (env : CGEnv) (url : String) : String :=
  match env.pathnameOf url with
  | none => "png"
  | some pathname =>
    let extension := jsToLower ((jsSplitDot pathname).getLast?.getD "")
    match extension with
    | "png" => "png"
    | "jpg" => "jpg"
    | "jpeg" => "jpeg"
    | "webp" => "webp"
    | "svg" => "svg"
    | _ => "png"

/-- Embeds `CoinGeckoProvider.fetchImage` (lines 29-70): requires an API key and
a mapped platform id; a non-ok response, a thrown fetch, or a missing or
empty `image.large` field yields absent; otherwise a URL result tagged
`coingecko` with the extension derived from the URL. -/
def cgFetchImage (env : CGEnv) (chainId : Nat) (address : String) :
    Option ImageResult :=
  if env.apiKey = "" then none
  else match cgChainIdToCoingeckoId chainId with
    | none => none
    | some _ =>
      match env.response with
      | .throws => none
      | .notOk => none
      | .ok none => none
      | .ok (some imageUrl) =>
        if imageUrl = "" then none
        else some { url := some imageUrl, buffer := none, provider := "coingecko",
                    extension := cgGetExtensionFromUrl env imageUrl, path := none }

/-- The closed extension set named by the specification (§3), plus the
`jpeg` casing of `jpg`. -/
def closedExtensionSet : List String :=
  ["png", "jpg", "webp", "svg", "gif", "bmp", "ico", "tiff", "jpeg"]

/-- Counterexample to C9 as stated: a local token directory holding the
file `image.data` makes `LocalImagesProvider.fetchImage` return a
non-absent result whose extension is `data`, which is outside the closed
extension set — the on-disk suffix is not validated against the set. -/
theorem imageResult_extension_counterexample :
    localFetchImage { dirExists := true, files := .ok ["image.data"], readFileOutcome := some [0] } 1 "0xAbC"
      = some { url := none, buffer := some [0], provider := "local",
               extension := "data", path := some "1/0xabc/image.data" }
    ∧ "data" ∉ closedExtensionSet := by
  constructor
  · decide
  · decide

/-- The extension computed by the CoinGecko provider is always one of
png/jpg/jpeg/webp/svg. -/
theorem cgGetExtensionFromUrl_mem (env : CGEnv) (url : String) :
    cgGetExtensionFromUrl env url ∈ (["png", "jpg", "jpeg", "webp", "svg"] : List String) := by
  unfold cgGetExtensionFromUrl
  split
  · simp
  · dsimp only
    split <;> simp

/-- C9 (amended): every non-absent `ImageResult` of the CoinGecko provider
has the url populated and no buffer, with an extension drawn from the
closed set (specifically from png/jpg/jpeg/webp/svg); every non-absent
result of the Local provider has the buffer populated and no url, with a
non-empty extension taken from the on-disk file name — which the code
does not validate against the closed set. -/
theorem imageResult_field_invariants (lenv : LocalEnv) (cenv : CGEnv)
    (chainId : Nat) (address : String) :
    (∀ r, cgFetchImage cenv chainId address = some r →
        r.url.isSome ∧ r.buffer = none
        ∧ r.extension ∈ closedExtensionSet
        ∧ r.extension ∈ (["png", "jpg", "jpeg", "webp", "svg"] : List String))
    ∧ (∀ r, localFetchImage lenv chainId address = some r →
        r.buffer.isSome ∧ r.url = none ∧ r.extension ≠ "") := by
  constructor
  · intro r hr
    unfold cgFetchImage at hr
    split at hr
    · cases hr
    · split at hr
      · cases hr
      · split at hr
        · cases hr
        · cases hr
        · cases hr
        · split at hr
          · cases hr
          · rename_i imageUrl heqr hne
            cases hr
            have hmem := cgGetExtensionFromUrl_mem cenv imageUrl
            refine ⟨rfl, rfl, ?_, hmem⟩
            have hsub : ∀ x ∈ (["png", "jpg", "jpeg", "webp", "svg"] : List String),
                x ∈ closedExtensionSet := by decide
            exact hsub _ hmem
  · intro r hr
    unfold localFetchImage at hr
    split at hr
    · cases hr
    · split at hr
      · cases hr
      · split at hr
        · cases hr
        · split at hr
          · cases hr
          · split at hr
            · cases hr
            · split at hr
              · cases hr
              · cases hr
                exact ⟨rfl, rfl, by assumption⟩

/-- Witness for the amended C9: a CoinGecko response pointing at
`/img.WEBP` yields a url-only result with extension `webp`; a local file
`image.svg` yields a buffer-only result with extension `svg`. -/
theorem imageResult_field_invariants_witness :
    (({ url := some "https://assets.coingecko.com/img.WEBP", buffer := none, provider := "coingecko", extension := "webp", path := none } : ImageResult).url.isSome
      ∧ ({ url := some "https://assets.coingecko.com/img.WEBP", buffer := none, provider := "coingecko", extension := "webp", path := none } : ImageResult).buffer = none
      ∧ ({ url := some "https://assets.coingecko.com/img.WEBP", buffer := none, provider := "coingecko", extension := "webp", path := none } : ImageResult).extension ∈ closedExtensionSet
      ∧ ({ url := some "https://assets.coingecko.com/img.WEBP", buffer := none, provider := "coingecko", extension := "webp", path := none } : ImageResult).extension ∈ (["png", "jpg", "jpeg", "webp", "svg"] : List String))
    ∧ (({ url := none, buffer := some [3], provider := "local", extension := "svg", path := some "1/0xab/image.svg" } : ImageResult).buffer.isSome
      ∧ ({ url := none, buffer := some [3], provider := "local", extension := "svg", path := some "1/0xab/image.svg" } : ImageResult).url = none
      ∧ ({ url := none, buffer := some [3], provider := "local", extension := "svg", path := some "1/0xab/image.svg" } : ImageResult).extension ≠ "") := by
  have h := imageResult_field_invariants
    { dirExists := true, files := .ok ["image.svg"], readFileOutcome := some [3] }
    { apiKey := "key", response := .ok (some "https://assets.coingecko.com/img.WEBP"), pathnameOf := fun _ => some "/img.WEBP" }
    1 "0xAB"
  exact ⟨h.1 _ (by decide), h.2 _ (by decide)⟩

end TokenImages
